import Mathlib

/-!
Verification of the Smart_Calculator repository (src/calculator/calculator.py).

The development shallowly embeds the Python program: strings become
`List Char` / `String`, the variable dictionary becomes an association
list, exceptions become `Option` (with `none` marking an *uncaught*
exception, i.e. a crash of the process), and Python numbers become exact
rationals `ℚ` (Python's float division is binary floating point; the
rational model coincides with it on every input whose operations are
exact, as at all inputs used in the theorems below).  `to_postfix` and
`calculate_postfix` are embedded as `toRpn` and `calcRpn`.
-/

/-- Python `str.isdigit` on a single character, restricted to ASCII
(the program only ever receives ASCII input). -/
def charIsDigit (c : Char) : Bool :=
  48 ≤ c.toNat && c.toNat ≤ 57

/-- Python `str.isalpha` on a single character, restricted to ASCII. -/
def charIsAlpha (c : Char) : Bool :=
  (65 ≤ c.toNat && c.toNat ≤ 90) || (97 ≤ c.toNat && c.toNat ≤ 122)

/-- A character that continues a number/identifier run in `to_array`. -/
def charIsAlnum (c : Char) : Bool :=
  charIsAlpha c || charIsDigit c

/-- Python `s.isdigit()` for a whole string: nonempty and all digits. -/
def strIsdigit (s : List Char) : Bool :=
  !s.isEmpty && s.all charIsDigit

/-- Python `s.isalpha()` for a whole string: nonempty and all letters. -/
def strIsalpha (s : List Char) : Bool :=
  !s.isEmpty && s.all charIsAlpha

/-- Python `s.lstrip("-")`: drop all leading minus signs. -/
def lstripMinus (s : List Char) : List Char :=
  s.dropWhile (fun c => c == '-')

/-- The module-level `precedence` dictionary (calculator.py line 48).
Note that it contains the key `'^'` but not `'**'`; a lookup of a key
that is absent is a Python `KeyError`, modelled by `none`. -/
def precedence (t : String) : Option ℕ :=
  if t = "(" then some 4
  else if t = ")" then some 4
  else if t = "^" then some 3
  else if t = "*" then some 2
  else if t = "/" then some 2
  else if t = "+" then some 1
  else if t = "-" then some 1
  else none

/-- A character matched by the character class of the regex `[+|-]+`
in `to_array` (the class contains `'+'`, `'|'` and `'-'`). -/
def isSignTokChar (c : Char) : Bool :=
  c == '+' || c == '|' || c == '-'

/-- Sign folding of `to_array` (lines 133-137): a matched run becomes
`'-'` when it contains an odd number of `'-'`, else `'+'`. -/
def foldSign (run : List Char) : String :=
  if run.count '-' % 2 = 1 then "-" else "+"

/-- The scanning loop of `to_array` (calculator.py lines 119-138).
The fuel argument only bounds the recursion; every step consumes at
least one character, so `fuel = length` suffices (see `toArray`). -/
def toArrayAux : ℕ → List Char → List String
  | _, [] => []
  | 0, _ :: _ => []
  | f + 1, c :: rest =>
    if charIsAlpha c || charIsDigit c then
      String.mk (c :: rest.takeWhile charIsAlnum) ::
        toArrayAux f (rest.dropWhile charIsAlnum)
    else if c == '(' || c == ')' || c == '*' || c == '/' then
      String.mk [c] :: toArrayAux f rest
    else if c == '^' then
      "**" :: toArrayAux f rest
    else if isSignTokChar c then
      foldSign (c :: rest.takeWhile isSignTokChar) ::
        toArrayAux f (rest.dropWhile isSignTokChar)
    else
      toArrayAux f rest

/-- `to_array(expr)`: tokenize an expression string. -/
def toArray (s : List Char) : List String :=
  toArrayAux s.length s

/-- A character of the regex class `[*/^]` used by `check_expr`. -/
def isMulOpChar (c : Char) : Bool :=
  c == '*' || c == '/' || c == '^'

/-- `re.search("[*/^]{2,}", expr) is not None`: the string has two
adjacent characters from the class `[*/^]`. -/
def hasAdjMulOps : List Char → Bool
  | a :: b :: t => (isMulOpChar a && isMulOpChar b) || hasAdjMulOps (b :: t)
  | _ => false

/-- `check_expr(expr)` (calculator.py lines 93-105): `true` means the
function raises `ExpressionError`. -/
def checkExpr (s : List Char) : Bool :=
  (s.count '(' != s.count ')') || hasAdjMulOps s

/-- The `while stack[-1] != '(': postfix.append(stack.pop())` loop of the
`')'` case of `to_postfix` (lines 70-73), followed by the discarding
`stack.pop()`.  Returns the popped elements (in pop order) and the
remaining stack; `none` models the `IndexError` of `stack[-1]` on an
empty deque.  The stack is a list with its head as top. -/
def popUntilParen : List String → Option (List String × List String)
  | [] => none
  | t :: rest =>
    if t = "(" then some ([], rest)
    else (popUntilParen rest).map (fun p => (t :: p.1, p.2))

/-- The `while len(stack) and precedence[el] <= precedence[stack[-1]]`
loop of `to_postfix` (lines 83-85), given `pel = precedence[el]`.
`none` models a `KeyError` on `precedence[stack[-1]]`. -/
def popWhileGE (pel : ℕ) : List String → Option (List String × List String)
  | [] => some ([], [])
  | t :: rest =>
    match precedence t with
    | none => none
    | some pt =>
      if pel ≤ pt then (popWhileGE pel rest).map (fun p => (t :: p.1, p.2))
      else some ([], t :: rest)

/-- The token loop of `to_postfix` (calculator.py lines 63-86), carrying
the operator stack (head = top) and the output accumulated so far.  The
guard chain mirrors the source's evaluation order: `precedence[el]` is
looked up only after `len(stack) == 0` and `stack[-1] == '('` have been
tested, so a `KeyError` (`none`) occurs exactly where Python raises. -/
def toRpnAux : List String → List String → List String → Option (List String)
  | [], stack, out => some (out ++ stack)
  | el :: els, stack, out =>
    if strIsdigit el.data || strIsalpha el.data then
      toRpnAux els stack (out ++ [el])
    else if el = "(" then
      toRpnAux els (el :: stack) out
    else if el = ")" then
      match popUntilParen stack with
      | none => none
      | some (o, rest) => toRpnAux els rest (out ++ o)
    else
      match stack with
      | [] => toRpnAux els [el] out
      | top :: _ =>
        if top = "(" then toRpnAux els (el :: stack) out
        else
          match precedence el with
          | none => none
          | some pe =>
            match precedence top with
            | none => none
            | some pt =>
              if pe > pt then toRpnAux els (el :: stack) out
              else
                match popWhileGE pe stack with
                | none => none
                | some (o, rest) => toRpnAux els (el :: rest) (out ++ o)

/-- `to_postfix(infix)` (calculator.py lines 51-90): convert the token
list to reverse-Polish order; at the end the whole stack is popped onto
the output (lines 88-89). -/
def toRpn (toks : List String) : Option (List String) :=
  toRpnAux toks [] []

/-- A value on the evaluation stack of `calculate_postfix`: Python pushes
the literal *strings* for number and variable tokens and pushes the
*numbers* produced by `eval` for operator results. -/
inductive PyVal
  | str : String → PyVal
  | num : ℚ → PyVal
deriving DecidableEq

/-- Numeric value of a digit run (all characters `'0'`-`'9'`). -/
def natOfDigits (s : List Char) : ℕ :=
  s.foldl (fun n c => 10 * n + (c.toNat - 48)) 0

/-!
Exact rational arithmetic, written out over `mkRat` so that every
operation evaluates by kernel reduction (the standard `Rat` operations
are `@[irreducible]`).  Bridge lemmas identify each with the standard
`ℚ` operation.
-/

/-- Exact rational addition. -/
def ratAdd (a b : ℚ) : ℚ :=
  mkRat (a.num * b.den + b.num * a.den) (a.den * b.den)

/-- Exact rational subtraction. -/
def ratSub (a b : ℚ) : ℚ :=
  mkRat (a.num * b.den - b.num * a.den) (a.den * b.den)

/-- Exact rational multiplication. -/
def ratMul (a b : ℚ) : ℚ :=
  mkRat (a.num * b.num) (a.den * b.den)

/-- Exact rational inverse (`0` maps to `0`, as for `Inv ℚ`). -/
def ratInv (a : ℚ) : ℚ :=
  mkRat (a.den * a.num.sign) a.num.natAbs

/-- Exact rational division by a nonzero denominator. -/
def ratDiv (a b : ℚ) : ℚ :=
  ratMul a (ratInv b)

/-- Exact rational power. -/
def ratPowNat (a : ℚ) : ℕ → ℚ
  | 0 => mkRat 1 1
  | n + 1 => ratMul (ratPowNat a n) a

/-- The value the Python expression text `s` denotes when `eval` re-reads
a stack string inside `f"{a} {el} {b}"`: an optional run of unary
minuses followed by a decimal literal.  A literal with a leading zero
(such as `007`) is a `SyntaxError` in Python 3, hence `none`; a run of
zeros only (such as `000`) is legal. -/
def pyLiteralNum (s : List Char) : Option ℚ :=
  let ds := s.dropWhile (fun c => c == '-')
  let k := s.length - ds.length
  match ds with
  | [] => none
  | d :: _ =>
    if ds.all charIsDigit && (d != '0' || ds.all (fun c => c == '0')) then
      if k % 2 = 1 then some (mkRat (-(natOfDigits ds : ℤ)) 1)
      else some (mkRat (natOfDigits ds : ℤ) 1)
    else none

/-- Numeric value of a stack entry as seen by `eval`. -/
def toNumV : PyVal → Option ℚ
  | .num q => some q
  | .str s => pyLiteralNum s.data

/-- `eval(f"{a} {el} {b}")` (calculator.py line 238).  `+`, `-`, `*` are
exact; `/` is Python's float (true) division, modelled exactly over `ℚ`
(`none` on division by zero, Python's `ZeroDivisionError`); `**` is
exponentiation.  Any other operator text is a `SyntaxError` (`none`). -/
def pyEval (a : PyVal) (op : String) (b : PyVal) : Option ℚ :=
  match toNumV a, toNumV b with
  | some na, some nb =>
    if op = "+" then some (ratAdd na nb)
    else if op = "-" then some (ratSub na nb)
    else if op = "*" then some (ratMul na nb)
    else if op = "/" then
      if nb.num = 0 then none else some (ratDiv na nb)
    else if op = "**" then
      if nb.den = 1 then
        if 0 ≤ nb.num then some (ratPowNat na nb.num.toNat)
        else if na.num = 0 then none
        else some (ratInv (ratPowNat na nb.num.natAbs))
      else none
    else none
  | _, _ => none

/-- Python `int(s)` on a string: one optional sign, then digits (leading
zeros are allowed here, unlike in `eval`). -/
def intOfPyStr : List Char → Option ℤ
  | '-' :: t => if strIsdigit t then some (-(natOfDigits t : ℤ)) else none
  | '+' :: t => if strIsdigit t then some ((natOfDigits t : ℤ)) else none
  | s => if strIsdigit s then some ((natOfDigits s : ℤ)) else none

/-- Python `int(q)` on a number: truncation toward zero. -/
def ratTrunc (q : ℚ) : ℤ :=
  Int.sign q.num * ((q.num.natAbs / q.den : ℕ) : ℤ)

/-- `int(stack.pop())` applied to the final stack value. -/
def intOfVal : PyVal → Option ℤ
  | .str s => intOfPyStr s.data
  | .num q => some (ratTrunc q)

/-- The variable dictionary `self.variables`: identifier to stored
string, as an association list. -/
abbrev Store := List (String × String)

/-- Dictionary lookup; `none` is Python's `KeyError`. -/
def lookupVar : Store → String → Option String
  | [], _ => none
  | (k, v) :: t, x => if k = x then some v else lookupVar t x

/-- Dictionary assignment `self.variables[x] = v` (overwrite or add). -/
def setVar : Store → String → String → Store
  | [], x, v => [(x, v)]
  | (k, w) :: t, x, v =>
    if k = x then (x, v) :: t else (k, w) :: setVar t x v

/-- One iteration of the loop of `calculate_postfix` (lines 231-238):
push digit-looking tokens as strings, resolve alphabetic tokens in the
dictionary (`none` = uncaught `KeyError`), otherwise pop `b` then `a`
and push `eval(f"{a} {el} {b}")` (`none` on a pop from an empty deque,
Python's `IndexError`). -/
def calcStep (vars : Store) (el : String) (stack : List PyVal) :
    Option (List PyVal) :=
  if strIsdigit (lstripMinus el.data) then some (.str el :: stack)
  else if strIsalpha el.data then
    match lookupVar vars el with
    | none => none
    | some v => some (.str v :: stack)
  else
    match stack with
    | b :: a :: rest => (pyEval a el b).map (fun q => .num q :: rest)
    | _ => none

/-- The full token loop of `calculate_postfix`. -/
def calcFold (vars : Store) : List String → List PyVal → Option (List PyVal)
  | [], stack => some stack
  | el :: els, stack =>
    match calcStep vars el stack with
    | none => none
    | some st => calcFold vars els st

/-- `calculate_postfix(postfix)` (calculator.py lines 220-239): run the
token loop on an empty stack and return `int(stack.pop())` (`none` if
the final stack is empty — `IndexError` — or the conversion fails). -/
def calcRpn (vars : Store) (toks : List String) : Option ℤ :=
  match calcFold vars toks [] with
  | none => none
  | some [] => none
  | some (v :: _) => intOfVal v

/-- Python whitespace for `str.split()` with no argument. -/
def pyIsSpace (c : Char) : Bool :=
  c == ' ' || c == '\t' || c == '\n' || c == '\r' || c == '\x0b' || c == '\x0c'

/-- Scanner for `str.split()`: split on runs of whitespace, discarding
empty pieces.  Fuel-bounded as in `toArrayAux`. -/
def splitWsAux : ℕ → List Char → List String
  | _, [] => []
  | 0, _ :: _ => []
  | f + 1, c :: rest =>
    if pyIsSpace c then splitWsAux f rest
    else
      String.mk (c :: rest.takeWhile (fun d => !pyIsSpace d)) ::
        splitWsAux f (rest.dropWhile (fun d => !pyIsSpace d))

/-- Python `s.split()` with no argument. -/
def splitWs (s : List Char) : List String :=
  splitWsAux s.length s

/-- `assign_valid(cmd_arr)` (calculator.py lines 158-180): `some msg`
means the corresponding exception is raised (its display message);
`none` means the assignment is accepted. -/
def assignValid (vars : Store) (parts : List String) : Option String :=
  match parts with
  | [identifier, value] =>
    if !strIsalpha identifier.data then some "Invalid identifier"
    else if strIsdigit (lstripMinus value.data) then none
    else if !strIsalpha value.data then some "Invalid assignment"
    else
      match lookupVar vars value with
      | none => some "Unknown variable"
      | some _ => none
  | _ => some "Invalid assignment"

/-- `assign(identifier, value)` (calculator.py lines 182-195): store a
numeric-looking right-hand side verbatim, otherwise copy the referenced
variable's current value.  `none` is the `KeyError` of line 195, which
is unreachable after a successful `assign_valid`. -/
def assignVar (vars : Store) (identifier value : String) : Option Store :=
  if strIsdigit (lstripMinus value.data) then
    some (setVar vars identifier value)
  else
    match lookupVar vars value with
    | some v => some (setVar vars identifier v)
    | none => none

/-- The static text printed by `/help` (calculator.py lines 213-216). -/
def helpText : String :=
  "A calculator with variables! Available operations:\n-typing any variable to see the value,\n-entering an operation with (), +, -, /, *,\n-using both numbers and available variables\n"

/-- One iteration of the `while self.run` loop of `run_calc`
(calculator.py lines 254-296) on input `line`.  The result is
`some (store', printed, keepRunning)`, or `none` when the iteration
raises an exception that no `except` clause catches (which kills the
process).  The branch order and the caught exception classes follow the
source: the bare-variable `KeyError`, every exception in the assignment
branch, `CommandException`, and `ExpressionError` from `check_expr` are
caught; nothing raised by `to_array`, `to_postfix` or
`calculate_postfix` is. -/
def processLine (vars : Store) (line : String) : Option (Store × List String × Bool) :=
  if line.data.isEmpty then some (vars, [], true)
  else if strIsdigit (lstripMinus line.data) then some (vars, [line], true)
  else if strIsalpha (line.data.filter (fun c => !(c == ' '))) then
    match lookupVar vars (String.mk (line.data.filter (fun c => !(c == ' ')))) with
    | some v => some (vars, [v], true)
    | none => some (vars, ["Unknown variable"], true)
  else if line.data.contains '=' then
    match assignValid vars (splitWs (line.data.map (fun c => if c == '=' then ' ' else c))) with
    | some msg => some (vars, [msg], true)
    | none =>
      match splitWs (line.data.map (fun c => if c == '=' then ' ' else c)) with
      | [identifier, value] =>
        match assignVar vars identifier value with
        | some vars2 => some (vars2, [], true)
        | none => some (vars, ["'" ++ value ++ "'"], true)
      | _ => none
  else if line.data.head? == some '/' then
    if line = "/exit" then some (vars, ["Bye!"], false)
    else if line = "/help" then some (vars, [helpText], true)
    else some (vars, ["Unknown command"], true)
  else
    if checkExpr line.data then some (vars, ["Invalid expression"], true)
    else
      match toRpn (toArray line.data) with
      | none => none
      | some rpn =>
        match calcRpn vars rpn with
        | none => none
        | some r => some (vars, [toString r], true)

/-- Modelled from the spec: the precedence table of §4.4
(`(`/`)` = 4, `^` = 3, `*`/`/` = 2, `+`/`-` = 1). -/
def specPrec (t : String) : Option ℕ :=
  if t = "(" ∨ t = ")" then some 4
  else if t = "^" then some 3
  else if t = "*" ∨ t = "/" then some 2
  else if t = "+" ∨ t = "-" then some 1
  else none

/-- Modelled from the spec: the operator rule of §4.4 — "while the
operator stack is non-empty, its top is not `(`, and
precedence(top) ≥ precedence(op), pop top to output". -/
def popWhileSpec (pe : ℕ) : List String → Option (List String × List String)
  | [] => some ([], [])
  | t :: rest =>
    if t = "(" then some ([], t :: rest)
    else
      match specPrec t with
      | none => none
      | some pt =>
        if pe ≤ pt then (popWhileSpec pe rest).map (fun p => (t :: p.1, p.2))
        else some ([], t :: rest)

/-- Modelled from the spec: the full shunting-yard conversion of §4.4,
with the `(`-guard in the operator rule. -/
def toRpnSpecAux : List String → List String → List String → Option (List String)
  | [], stack, out => some (out ++ stack)
  | el :: els, stack, out =>
    if strIsdigit el.data || strIsalpha el.data then
      toRpnSpecAux els stack (out ++ [el])
    else if el = "(" then
      toRpnSpecAux els (el :: stack) out
    else if el = ")" then
      match popUntilParen stack with
      | none => none
      | some (o, rest) => toRpnSpecAux els rest (out ++ o)
    else
      match specPrec el with
      | none => none
      | some pe =>
        match popWhileSpec pe stack with
        | none => none
        | some (o, rest) => toRpnSpecAux els (el :: rest) (out ++ o)

/-- Modelled from the spec: §4.4's converter on a validated token list. -/
def toRpnSpec (toks : List String) : Option (List String) :=
  toRpnSpecAux toks [] []

/-- Truncating integer division (quotient rounded toward zero), the
convention §9 of the spec recommends pinning for integer division. -/
def intTdiv (a b : ℤ) : ℤ :=
  Int.sign a * Int.sign b * ((a.natAbs / b.natAbs : ℕ) : ℤ)

/-- Modelled from the spec: one step of §4.5's postfix evaluation over
exact arbitrary-precision *integers* (the value domain §1 and C9
claim), with `/` as truncating integer division. -/
def intEvalRpnStep (el : String) (stack : List ℤ) : Option (List ℤ) :=
  if strIsdigit el.data then some ((natOfDigits el.data : ℤ) :: stack)
  else
    match stack with
    | b :: a :: rest =>
      if el = "+" then some ((a + b) :: rest)
      else if el = "-" then some ((a - b) :: rest)
      else if el = "*" then some ((a * b) :: rest)
      else if el = "/" then
        if b = 0 then none else some (intTdiv a b :: rest)
      else if el = "**" ∨ el = "^" then
        if 0 ≤ b then some ((a ^ b.toNat) :: rest) else none
      else none
    | _ => none

/-- Modelled from the spec: fold of `intEvalRpnStep` over the tokens. -/
def intEvalRpnFold : List String → List ℤ → Option (List ℤ)
  | [], stack => some stack
  | el :: els, stack =>
    match intEvalRpnStep el stack with
    | none => none
    | some st => intEvalRpnFold els st

/-- Modelled from the spec: §4.5's postfix evaluation over integers; the
result is defined only when exactly one value remains (the hardening §9
recommends). -/
def intEvalRpn (toks : List String) : Option ℤ :=
  match intEvalRpnFold toks [] with
  | some [r] => some r
  | _ => none

/-- State of the reference infix evaluator: either about to parse a
subexpression at a binding level (0 = additive, 1 = multiplicative,
2 = power, 3 = atom), or folding a left-associative operator chain at a
level with the value accumulated so far. -/
inductive RMode
  | parse : ℕ → RMode
  | chain : ℕ → ℤ → RMode

/-- Does `t` combine operands at binding level `lvl`? -/
def opAtLevel (t : String) (lvl : ℕ) : Bool :=
  if lvl = 0 then t = "+" ∨ t = "-"
  else if lvl = 1 then t = "*" ∨ t = "/"
  else t = "^"

/-- Modelled from the spec: apply one binary operator over integers
(`/` truncating toward zero, `^` only for nonnegative exponents). -/
def applyRefOp (t : String) (a b : ℤ) : Option ℤ :=
  if t = "+" then some (a + b)
  else if t = "-" then some (a - b)
  else if t = "*" then some (a * b)
  else if t = "/" then if b = 0 then none else some (intTdiv a b)
  else if t = "^" then if 0 ≤ b then some (a ^ b.toNat) else none
  else none

/-- Modelled from the spec: the reference "left-to-right manual
evaluation respecting precedence" of §8 — a recursive-descent
evaluation of the infix token list in which `+`,`-` bind loosest,
`*`,`/` tighter, `^` tightest, and operators of equal precedence
associate to the left.  Fuel-bounded; `refEval` supplies ample fuel. -/
def refParse (vars : String → Option ℤ) : ℕ → RMode → List String → Option (ℤ × List String)
  | 0, _, _ => none
  | f + 1, .parse lvl, toks =>
    if 3 ≤ lvl then
      match toks with
      | [] => none
      | t :: ts =>
        if strIsdigit t.data then some ((natOfDigits t.data : ℤ), ts)
        else if strIsalpha t.data then (vars t).map (fun v => (v, ts))
        else if t = "(" then
          match refParse vars f (.parse 0) ts with
          | some (v, u :: ts2) => if u = ")" then some (v, ts2) else none
          | _ => none
        else none
    else
      match refParse vars f (.parse (lvl + 1)) toks with
      | none => none
      | some (a, ts) => refParse vars f (.chain lvl a) ts
  | f + 1, .chain lvl a, toks =>
    match toks with
    | [] => some (a, [])
    | t :: ts =>
      if opAtLevel t lvl then
        match refParse vars f (.parse (lvl + 1)) ts with
        | none => none
        | some (b, ts2) =>
          match applyRefOp t a b with
          | none => none
          | some c => refParse vars f (.chain lvl c) ts2
      else some (a, t :: ts)

/-- Modelled from the spec: reference evaluation of a whole infix token
sequence (the token list must be consumed completely). -/
def refEval (vars : String → Option ℤ) (toks : List String) : Option ℤ :=
  match refParse vars (4 * toks.length + 4) (.parse 0) toks with
  | some (v, []) => some v
  | _ => none

/-- A whole interactive session on a list of input lines: thread the
store through `processLine`, collect everything printed, stop at
`/exit` (or when the input is exhausted); `none` when some line crashes
the process. -/
def runCalc (vars : Store) : List String → Option (List String)
  | [] => some []
  | l :: ls =>
    match processLine vars l with
    | none => none
    | some (vars2, out, cont) =>
      if cont then
        match runCalc vars2 ls with
        | none => none
        | some rest => some (out ++ rest)
      else some out

/-! ### Helper lemmas -/

theorem lookupVar_setVar_self (s : Store) (k v : String) :
    lookupVar (setVar s k v) k = some v := by
  induction s with
  | nil => simp [setVar, lookupVar]
  | cons h t ih =>
    obtain ⟨k', w⟩ := h
    by_cases hk : k' = k
    · simp [setVar, hk, lookupVar]
    · simp [setVar, hk, lookupVar, ih]

theorem lookupVar_setVar_ne (s : Store) (k k' v : String) (h : k' ≠ k) :
    lookupVar (setVar s k v) k' = lookupVar s k' := by
  have h' : k ≠ k' := Ne.symm h
  induction s with
  | nil => simp [setVar, lookupVar, h']
  | cons hd t ih =>
    obtain ⟨k0, w⟩ := hd
    by_cases hk : k0 = k
    · subst hk
      simp [setVar, lookupVar, h']
    · simp [setVar, hk, lookupVar, ih]

theorem charIsAlpha_not_digit {c : Char} (h : charIsAlpha c = true) :
    charIsDigit c = false := by
  cases hd : charIsDigit c with
  | false => rfl
  | true =>
    exfalso
    simp only [charIsAlpha, Bool.or_eq_true, Bool.and_eq_true,
      decide_eq_true_eq] at h
    simp only [charIsDigit, Bool.and_eq_true, decide_eq_true_eq] at hd
    omega

theorem charIsAlpha_ne_minus {c : Char} (h : charIsAlpha c = true) :
    (c == '-') = false := by
  cases hb : c == '-' with
  | false => rfl
  | true =>
    exfalso
    have hc : c = '-' := by simpa using hb
    subst hc
    simp [charIsAlpha] at h

/-- An alphabetic string survives `lstrip("-")` unchanged and does not
look like a number. -/
theorem strIsalpha_facts {s : List Char} (h : strIsalpha s = true) :
    lstripMinus s = s ∧ strIsdigit s = false := by
  obtain ⟨hne, hall⟩ :
      (!s.isEmpty) = true ∧ s.all charIsAlpha = true := by
    simpa [strIsalpha, Bool.and_eq_true] using h
  cases s with
  | nil => simp at hne
  | cons c t =>
    have hc : charIsAlpha c = true := by
      have := (List.all_eq_true.mp hall) c (List.mem_cons_self c t)
      simpa using this
    constructor
    · simp [lstripMinus, List.dropWhile_cons, charIsAlpha_ne_minus hc]
    · simp [strIsdigit, charIsAlpha_not_digit hc]

theorem int_sign_mul_self (a : ℤ) : a.sign * a = (a.natAbs : ℤ) := by
  cases a with
  | ofNat n =>
    cases n with
    | zero => rfl
    | succ m =>
      show (1 : ℤ) * (Int.ofNat (m + 1)) = ((m + 1 : ℕ) : ℤ)
      rw [one_mul]
      rfl
  | negSucc n =>
    show (-1 : ℤ) * (Int.negSucc n) = ((n + 1 : ℕ) : ℤ)
    rw [Int.negSucc_eq]
    push_cast
    ring

theorem ratMul_eq (a b : ℚ) : ratMul a b = a * b := by
  rw [ratMul, Rat.mkRat_eq_div]
  push_cast
  conv_rhs => rw [← Rat.num_div_den a, ← Rat.num_div_den b]
  rw [div_mul_div_comm]

theorem ratSub_eq (a b : ℚ) : ratSub a b = a - b := by
  have ha : ((a.den : ℚ)) ≠ 0 := Nat.cast_ne_zero.mpr (Rat.den_ne_zero a)
  have hb : ((b.den : ℚ)) ≠ 0 := Nat.cast_ne_zero.mpr (Rat.den_ne_zero b)
  rw [ratSub, Rat.mkRat_eq_div]
  push_cast
  conv_rhs => rw [← Rat.num_div_den a, ← Rat.num_div_den b]
  rw [div_sub_div _ _ ha hb]
  ring_nf

theorem ratAdd_eq (a b : ℚ) : ratAdd a b = a + b := by
  have ha : ((a.den : ℚ)) ≠ 0 := Nat.cast_ne_zero.mpr (Rat.den_ne_zero a)
  have hb : ((b.den : ℚ)) ≠ 0 := Nat.cast_ne_zero.mpr (Rat.den_ne_zero b)
  rw [ratAdd, Rat.mkRat_eq_div]
  push_cast
  conv_rhs => rw [← Rat.num_div_den a, ← Rat.num_div_den b]
  rw [div_add_div _ _ ha hb]
  ring_nf

theorem ratInv_eq (b : ℚ) : ratInv b = b⁻¹ := by
  rcases eq_or_ne b 0 with rfl | hb
  · simp [ratInv]
  · have hnum : b.num ≠ 0 := Rat.num_ne_zero.mpr hb
    have hden : ((b.den : ℚ)) ≠ 0 := Nat.cast_ne_zero.mpr (Rat.den_ne_zero b)
    have hbden : b * (b.den : ℚ) = (b.num : ℚ) := by
      calc b * (b.den : ℚ) = (b.num : ℚ) / (b.den : ℚ) * (b.den : ℚ) := by
            rw [Rat.num_div_den]
        _ = (b.num : ℚ) := div_mul_cancel₀ _ hden
    have hs2 : ((b.num.sign : ℤ) : ℚ) * (b.num : ℚ) = |(b.num : ℚ)| := by
      have h0 := congrArg (fun z : ℤ => (z : ℚ)) (int_sign_mul_self b.num)
      push_cast at h0
      exact h0
    have habs : |(b.num : ℚ)| ≠ 0 := abs_ne_zero.mpr (Int.cast_ne_zero.mpr hnum)
    have hA : ((b.num.natAbs : ℕ) : ℚ) = |(b.num : ℚ)| := by
      rw [Int.cast_natAbs, Int.cast_abs]
    refine eq_inv_of_mul_eq_one_left ?_
    rw [ratInv, Rat.mkRat_eq_div]
    push_cast
    field_simp
    linear_combination ((b.num.sign : ℤ) : ℚ) * hbden + hs2 - hA

theorem ratDiv_eq (a b : ℚ) : ratDiv a b = a / b := by
  rw [ratDiv, ratMul_eq, ratInv_eq, div_eq_mul_inv]

/-- `assign_valid` accepts only two-element command arrays. -/
theorem assignValid_none_shape (vars : Store) (parts : List String)
    (h : assignValid vars parts = none) : ∃ i v, parts = [i, v] := by
  match parts with
  | [] => simp [assignValid] at h
  | [x] => simp [assignValid] at h
  | [x, y] => exact ⟨x, y, rfl⟩
  | x :: y :: z :: t => simp [assignValid] at h

/-! ### Claim theorems -/

/-- C1: the claim asserts that every grammatically valid infix
expression round-trips through `to_postfix`/`calculate_postfix` to the
value of a reference precedence-respecting evaluation.  The code
violates this: `to_array` tokenizes `^` as `**`, which is not a key of
the `precedence` dictionary, so on `1 + 2 ^ 3` the converter raises an
uncaught `KeyError` (`none`) while the reference evaluation yields
`1 + (2^3) = 9`.  The `precedence` dictionary's own `'^': 3` entry
shows the intent; the `'**'` token is the slip. -/
theorem calc_c1 :
    processLine [] "1 + 2 ^ 3" = none ∧
    toArray "1 + 2 ^ 3".data = ["1", "+", "2", "**", "3"] ∧
    precedence "**" = none ∧
    refEval (fun _ => none) ["1", "+", "2", "^", "3"] = some 9 := by
  refine ⟨by decide, by decide, by decide, by decide⟩

/-- C2: the claim states the guarded operator rule (pop only while the
top is not `(`) and that `(` leaves the stack only via the `)` handler.
The code's while loop omits the `(` test: on the balanced token
sequence of `(1+2+3)` the second `+` pops the `(` into the output, and
the subsequent `)` underflows the stack — `to_postfix` crashes with an
uncaught `IndexError` (`none`), whereas the spec's guarded algorithm
(`toRpnSpec`) produces the parenthesis-free output. -/
theorem calc_c2 :
    toRpn (toArray "(1+2+3)".data) = none ∧
    toRpnSpec (toArray "(1+2+3)".data) = some ["1", "2", "+", "3", "+"] := by
  refine ⟨by decide, by decide⟩

/-- C3: the claim asserts the line `2 ^ 2 ^ 3` terminates normally and
prints 64.  The code instead crashes: the second `**` token meets `**`
on the operator stack and `precedence['**']` raises an uncaught
`KeyError`, so the session dies (`runCalc = none`); the reference
left-associative evaluation does give `(2^2)^3 = 64`. -/
theorem calc_c3 :
    runCalc [] ["2 ^ 2 ^ 3"] = none ∧
    refEval (fun _ => none) ["2", "^", "2", "^", "3"] = some 64 := by
  refine ⟨by decide, by decide⟩

/-- C4 counterexample: the claim asserts `3 - -4` evaluates to 7.  In
`3 - -4` the two minus signs are separated by a space, so the regex
`[+|-]+` matches them separately, two `-` operator tokens are produced,
and postfix evaluation underflows its stack: the session crashes
instead of printing 7. -/
theorem calc_c4_cex :
    runCalc [] ["3 - -4"] = none ∧
    toArray "3 - -4".data = ["3", "-", "-", "4"] := by
  refine ⟨by decide, by decide⟩

/-- C5 counterexample: referencing the never-assigned variable `y`
inside the arithmetic expression `y + 1` does not produce the
`UnknownVariableError` outcome; `calculate_postfix` hits an uncaught
`KeyError` and the session crashes. -/
theorem calc_c5_cex : runCalc [] ["y + 1"] = none := by decide

/-- C6 counterexample: the claim asserts `1 * * 2` always produces
`ExpressionError`.  The two stars are not adjacent (a space sits
between them), so `check_expr` accepts the line and the pipeline then
crashes with an uncaught `IndexError` instead. -/
theorem calc_c6_cex :
    checkExpr "1 * * 2".data = false ∧
    processLine [] "1 * * 2" = none := by
  refine ⟨by decide, by decide⟩

/-- The recursive adjacency scan agrees with "the string contains two
or more consecutive characters from the class". -/
theorem hasAdjMulOps_iff (s : List Char) :
    hasAdjMulOps s = true ↔
      ∃ l a b r, s = l ++ a :: b :: r ∧
        isMulOpChar a = true ∧ isMulOpChar b = true := by
  induction s with
  | nil =>
    constructor
    · intro h
      simp [hasAdjMulOps] at h
    · rintro ⟨l, a, b, r, hs, -, -⟩
      cases l <;> simp at hs
  | cons x t ih =>
    cases t with
    | nil =>
      constructor
      · intro h
        simp [hasAdjMulOps] at h
      · rintro ⟨l, a, b, r, hs, -, -⟩
        cases l with
        | nil => simp at hs
        | cons c l' =>
          simp only [List.cons_append, List.cons.injEq] at hs
          obtain ⟨-, hs2⟩ := hs
          cases l' <;> simp at hs2
    | cons y t' =>
      constructor
      · intro h
        simp only [hasAdjMulOps, Bool.or_eq_true, Bool.and_eq_true] at h
        rcases h with ⟨hx, hy⟩ | h
        · exact ⟨[], x, y, t', rfl, hx, hy⟩
        · obtain ⟨l, a, b, r, hs, ha, hb⟩ := ih.mp h
          exact ⟨x :: l, a, b, r, by rw [List.cons_append, ← hs], ha, hb⟩
      · rintro ⟨l, a, b, r, hs, ha, hb⟩
        cases l with
        | nil =>
          simp only [List.nil_append, List.cons.injEq] at hs
          obtain ⟨rfl, rfl, -⟩ := hs
          simp [hasAdjMulOps, ha, hb]
        | cons c l' =>
          simp only [List.cons_append, List.cons.injEq] at hs
          obtain ⟨-, hs2⟩ := hs
          have : hasAdjMulOps (y :: t') = true :=
            ih.mpr ⟨l', a, b, r, hs2, ha, hb⟩
          simp [hasAdjMulOps, this]

/-- C6 (amended): `check_expr` runs on the raw string and raises
exactly when the parenthesis counts differ or the string contains two
*adjacent* characters from `{*, /, ^}`; `(1+2` therefore always
produces `ExpressionError` — but `1 * * 2` does not (its stars are
separated by spaces; that line instead crashes later, see the
counterexample). -/
theorem calc_c6 :
    (∀ s : List Char,
      checkExpr s = true ↔
        (s.count '(' ≠ s.count ')' ∨
          ∃ l a b r, s = l ++ a :: b :: r ∧
            isMulOpChar a = true ∧ isMulOpChar b = true)) ∧
    (∀ vars : Store,
      processLine vars "(1+2" = some (vars, ["Invalid expression"], true)) := by
  constructor
  · intro s
    simp only [checkExpr, Bool.or_eq_true, bne_iff_ne, hasAdjMulOps_iff]
  · intro vars
    rfl

/-- C6 witness: the characterization applied at the concrete string
`"(1"` (unbalanced parentheses). -/
theorem calc_c6_witness : checkExpr "(1".data = true :=
  (calc_c6.1 "(1".data).mpr (Or.inl (by decide))

theorem length_dropWhile_le (p : Char → Bool) (l : List Char) :
    (l.dropWhile p).length ≤ l.length := by
  induction l with
  | nil => simp
  | cons c t ih =>
    rw [List.dropWhile_cons]
    split
    · exact le_trans ih (Nat.le_succ _)
    · exact le_refl _

/-- Scanning `l ++ r` with a predicate that holds on all of `l` and
fails at the head of `r` takes exactly `l` and drops to exactly `r`. -/
theorem takeWhile_append_of (p : Char → Bool) (l r : List Char)
    (hl : ∀ c ∈ l, p c = true) (hr : ∀ c, r.head? = some c → p c = false) :
    (l ++ r).takeWhile p = l ∧ (l ++ r).dropWhile p = r := by
  induction l with
  | nil =>
    simp only [List.nil_append]
    cases r with
    | nil => simp
    | cons c t =>
      have hc : p c = false := hr c rfl
      simp [List.takeWhile_cons, List.dropWhile_cons, hc]
  | cons c t ih =>
    have hc : p c = true := hl c (List.mem_cons_self _ _)
    have ht : ∀ c' ∈ t, p c' = true := fun c' h' => hl c' (List.mem_cons_of_mem _ h')
    obtain ⟨h1, h2⟩ := ih ht
    constructor
    · rw [List.cons_append, List.takeWhile_cons, if_pos hc, h1]
    · rw [List.cons_append, List.dropWhile_cons, if_pos hc, h2]

/-- The fuel of `toArrayAux` is irrelevant once it covers the input
length. -/
theorem toArrayAux_fuel :
    ∀ (f g : ℕ) (s : List Char), s.length ≤ f → s.length ≤ g →
      toArrayAux f s = toArrayAux g s := by
  intro f
  induction f with
  | zero =>
    intro g s hf hg
    have : s = [] := List.eq_nil_of_length_eq_zero (Nat.le_zero.mp hf)
    subst this
    cases g <;> rfl
  | succ f ih =>
    intro g s hf hg
    cases s with
    | nil => cases g <;> rfl
    | cons c rest =>
      cases g with
      | zero => simp at hg
      | succ g' =>
        have hf' : rest.length ≤ f := by simpa using hf
        have hg' : rest.length ≤ g' := by simpa using hg
        simp only [toArrayAux]
        split_ifs
        · exact congrArg _ (ih g' _
            (le_trans (length_dropWhile_le _ _) hf')
            (le_trans (length_dropWhile_le _ _) hg'))
        · exact congrArg _ (ih g' _ hf' hg')
        · exact congrArg _ (ih g' _ hf' hg')
        · exact congrArg _ (ih g' _
            (le_trans (length_dropWhile_le _ _) hf')
            (le_trans (length_dropWhile_le _ _) hg'))
        · exact ih g' _ hf' hg'

/-- C4 (amended): a *contiguous* run of `+`/`-` characters tokenizes
to the single operator `-` when the run contains an odd number of `-`
and `+` otherwise; hence `3 --- 4` prints `-1` and `3 ---- 4` prints
`7`.  (The claim's remaining example `3 - -4` has no such contiguous
run and crashes instead — see the counterexample.) -/
theorem calc_c4 :
    (∀ (run rest : List Char), run ≠ [] →
      (∀ c ∈ run, c = '+' ∨ c = '-') →
      (∀ c, rest.head? = some c → isSignTokChar c = false) →
      toArray (run ++ rest) =
        (if run.count '-' % 2 = 1 then "-" else "+") :: toArray rest) ∧
    runCalc [] ["3 --- 4"] = some ["-1"] ∧
    runCalc [] ["3 ---- 4"] = some ["7"] := by
  refine ⟨?_, by decide, by decide⟩
  intro run rest hne hsign hrest
  obtain ⟨c, run', rfl⟩ : ∃ c run', run = c :: run' := by
    cases run with
    | nil => exact absurd rfl hne
    | cons c r => exact ⟨c, r, rfl⟩
  have hc := hsign c (List.mem_cons_self _ _)
  have hrun' : ∀ x ∈ run', isSignTokChar x = true := by
    intro x hx
    rcases hsign x (List.mem_cons_of_mem _ hx) with rfl | rfl <;> decide
  have hcsign : isSignTokChar c = true := by
    rcases hc with rfl | rfl <;> decide
  have hcalnum : (charIsAlpha c || charIsDigit c) = false := by
    rcases hc with rfl | rfl <;> decide
  have hcpar : (c == '(' || c == ')' || c == '*' || c == '/') = false := by
    rcases hc with rfl | rfl <;> decide
  have hccaret : (c == '^') = false := by
    rcases hc with rfl | rfl <;> decide
  obtain ⟨htake, hdrop⟩ := takeWhile_append_of isSignTokChar run' rest hrun' hrest
  show toArrayAux ((c :: (run' ++ rest)).length) (c :: (run' ++ rest)) = _
  rw [show (c :: (run' ++ rest)).length = (run' ++ rest).length + 1 from rfl]
  simp only [toArrayAux, hcalnum, hcpar, hccaret, hcsign, Bool.false_eq_true,
    if_false, if_true]
  rw [htake, hdrop]
  congr 1
  exact toArrayAux_fuel _ _ _
    (le_trans (by simp) (le_of_eq (List.length_append run' rest).symm)) (le_refl _)

/-- C4 witness: a one-character run `-` before the digit `4`. -/
theorem calc_c4_witness :
    toArray (['-'] ++ ['4']) =
      (if List.count '-' ['-'] % 2 = 1 then "-" else "+") :: toArray ['4'] :=
  calc_c4.1 ['-'] ['4'] (by decide) (by decide)
    (by intro c hc; simp at hc; subst hc; decide)

/-- C7 counterexample: the claim asserts no input line other than
`/exit` can make `run_calc` raise or stop looping.  The line `1 +`
passes `check_expr`, and `calculate_postfix` then pops from an empty
stack: the uncaught `IndexError` kills the loop. -/
theorem calc_c7_cex : runCalc [] ["1 +"] = none := by decide

/-- C8: assignment of one variable to another copies the current value:
`assign` stores the looked-up value itself, so a later reassignment of
the source variable leaves the copy unchanged; and the four-line session
`a = 4`, `b = a`, `a = 5`, `b` prints exactly `4`. -/
theorem calc_c8 :
    (∀ (vars : Store) (x y v w : String),
      strIsalpha y.data = true → x ≠ y → lookupVar vars y = some v →
        assignVar vars x y = some (setVar vars x v) ∧
        lookupVar (setVar vars x v) x = some v ∧
        lookupVar (setVar (setVar vars x v) y w) x = some v) ∧
    runCalc [] ["a = 4", "b = a", "a = 5", "b"] = some ["4"] := by
  constructor
  · intro vars x y v w hy hxy hl
    obtain ⟨hstrip, hdig⟩ := strIsalpha_facts hy
    have hcond : strIsdigit (lstripMinus y.data) = false := by
      rw [hstrip]; exact hdig
    refine ⟨?_, lookupVar_setVar_self _ _ _, ?_⟩
    · simp [assignVar, hcond, hl]
    · rw [lookupVar_setVar_ne _ _ _ _ hxy]
      exact lookupVar_setVar_self _ _ _
  · decide

/-- C8 witness: the general part at the concrete store `[("a", "4")]`,
copying `a` into `b` and then overwriting `a`. -/
theorem calc_c8_witness :
    assignVar [("a", "4")] "b" "a" = some (setVar [("a", "4")] "b" "4") ∧
    lookupVar (setVar [("a", "4")] "b" "4") "b" = some "4" ∧
    lookupVar (setVar (setVar [("a", "4")] "b" "4") "a" "5") "b" = some "4" :=
  calc_c8.1 [("a", "4")] "b" "a" "4" "5" (by decide) (by decide) (by decide)

/-- C10: the store holds the right-hand-side text verbatim: any value
whose text is minus signs followed by digits passes `assign_valid`, is
stored unchanged, and a bare reference returns exactly the stored text;
in particular `x = 007` then `x` prints `007`, and `x = --5` then `x`
prints `--5`. -/
theorem calc_c10 :
    (∀ (vars : Store) (x v : String),
      strIsalpha x.data = true → strIsdigit (lstripMinus v.data) = true →
        assignValid vars [x, v] = none ∧
        assignVar vars x v = some (setVar vars x v) ∧
        lookupVar (setVar vars x v) x = some v) ∧
    runCalc [] ["x = 007", "x"] = some ["007"] ∧
    runCalc [] ["x = --5", "x"] = some ["--5"] := by
  constructor
  · intro vars x v hx hv
    refine ⟨?_, ?_, lookupVar_setVar_self _ _ _⟩
    · simp [assignValid, hx, hv]
    · simp [assignVar, hv]
  · exact ⟨by decide, by decide⟩

/-- C10 witness: the general part at the empty store with `x = 007`. -/
theorem calc_c10_witness :
    assignValid [] ["x", "007"] = none ∧
    assignVar [] "x" "007" = some (setVar [] "x" "007") ∧
    lookupVar (setVar [] "x" "007") "x" = some "007" :=
  calc_c10.1 [] "x" "007" (by decide) (by decide)

/-- C5 (amended): with `y` unassigned, a bare reference and an
assignment right-hand side both print `Unknown variable`, but inside an
arithmetic expression the dictionary `KeyError` is not caught and the
iteration crashes (`none`). -/
theorem calc_c5 :
    ∀ vars : Store, lookupVar vars "y" = none →
      processLine vars "y" = some (vars, ["Unknown variable"], true) ∧
      processLine vars "x = y" = some (vars, ["Unknown variable"], true) ∧
      processLine vars "y + 1" = none := by
  intro vars h
  refine ⟨?_, ?_, ?_⟩
  · have e : processLine vars "y" =
        (match lookupVar vars "y" with
          | some v => some (vars, [v], true)
          | none => some (vars, ["Unknown variable"], true)) := rfl
    rw [e, h]
  · have e : processLine vars "x = y" =
        (match assignValid vars ["x", "y"] with
          | some msg => some (vars, [msg], true)
          | none =>
            match assignVar vars "x" "y" with
            | some vars2 => some (vars2, [], true)
            | none => some (vars, ["'" ++ "y" ++ "'"], true)) := rfl
    have e2 : assignValid vars ["x", "y"] =
        (match lookupVar vars "y" with
          | none => some "Unknown variable"
          | some _ => none) := rfl
    rw [e, e2, h]
  · have e : processLine vars "y + 1" =
        (match calcRpn vars ["y", "1", "+"] with
          | none => none
          | some r => some (vars, [toString r], true)) := rfl
    have e2 : calcRpn vars ["y", "1", "+"] =
        (match calcFold vars ["y", "1", "+"] [] with
          | none => none
          | some [] => none
          | some (v :: _) => intOfVal v) := rfl
    have e3 : calcFold vars ["y", "1", "+"] [] =
        (match calcStep vars "y" [] with
          | none => none
          | some st => calcFold vars ["1", "+"] st) := rfl
    have e4 : calcStep vars "y" [] =
        (match lookupVar vars "y" with
          | none => none
          | some v => some [PyVal.str v]) := rfl
    rw [e, e2, e3, e4, h]

/-- C5 witness: the amended statement at the empty store. -/
theorem calc_c5_witness :
    processLine [] "y" = some ([], ["Unknown variable"], true) ∧
    processLine [] "x = y" = some ([], ["Unknown variable"], true) ∧
    processLine [] "y + 1" = none :=
  calc_c5 [] rfl

/-- C9 (amended): each operator application pops `b` then `a` and
pushes `a <op> b`, but the value domain is not the integers: `/` is
exact (true) division, so `10 4 /` leaves the non-integer 5/2 on the
stack, and the full line `10 / 4 * 2` prints 5 (the final `int()`
truncation of 5.0), not the all-integer-arithmetic result. -/
theorem calc_c9 :
    (∀ (a b : ℚ) (rest : List PyVal) (vars : Store),
      calcStep vars "-" (PyVal.num b :: PyVal.num a :: rest) =
        some (PyVal.num (a - b) :: rest) ∧
      (b ≠ 0 →
        calcStep vars "/" (PyVal.num b :: PyVal.num a :: rest) =
          some (PyVal.num (a / b) :: rest))) ∧
    calcFold [] ["10", "4", "/"] [] = some [PyVal.num (mkRat 5 2)] ∧
    processLine [] "10 / 4 * 2" = some ([], ["5"], true) := by
  constructor
  · intro a b rest vars
    constructor
    · have e : calcStep vars "-" (PyVal.num b :: PyVal.num a :: rest) =
          (pyEval (PyVal.num a) "-" (PyVal.num b)).map
            (fun q => PyVal.num q :: rest) := rfl
      have e2 : pyEval (PyVal.num a) "-" (PyVal.num b) = some (ratSub a b) := rfl
      rw [e, e2, ratSub_eq]
      rfl
    · intro hb
      have hb0 : b.num ≠ 0 := Rat.num_ne_zero.mpr hb
      have e : calcStep vars "/" (PyVal.num b :: PyVal.num a :: rest) =
          (pyEval (PyVal.num a) "/" (PyVal.num b)).map
            (fun q => PyVal.num q :: rest) := rfl
      have e2 : pyEval (PyVal.num a) "/" (PyVal.num b) =
          (if b.num = 0 then none else some (ratDiv a b)) := rfl
      rw [e, e2, if_neg hb0, ratDiv_eq]
      rfl
  · exact ⟨by decide, by decide⟩

/-- C9 witness: the division step at `a = 1`, `b = 2`. -/
theorem calc_c9_witness :
    calcStep [] "/" [PyVal.num 2, PyVal.num 1] =
      some [PyVal.num (1 / 2)] :=
  ((calc_c9.1 1 2 [] []).2 (by norm_num))

/-- C7 (amended): `/exit` is the only line that stops the loop, and
every error in the empty/number/variable/assignment/command branches
and `ExpressionError` from `check_expr` is caught and printed; but an
exception raised while tokenizing, converting or evaluating an
expression line that passed `check_expr` is not caught — a crash
(`none`) can only happen in the expression branch after validation
succeeded. -/
theorem calc_c7 :
    ∀ (vars : Store) (line : String),
      (∀ st out, processLine vars line = some (st, out, false) → line = "/exit") ∧
      (processLine vars line = none →
        line.data.isEmpty = false ∧
        strIsdigit (lstripMinus line.data) = false ∧
        strIsalpha (line.data.filter (fun c => !(c == ' '))) = false ∧
        line.data.contains '=' = false ∧
        (line.data.head? == some '/') = false ∧
        checkExpr line.data = false) := by
  intro vars line
  constructor
  · intro st out h
    unfold processLine at h
    repeat' split at h
    all_goals simp_all
  · intro h
    unfold processLine at h
    split at h
    · exact absurd h (by simp)
    next hempty =>
      split at h
      · exact absurd h (by simp)
      next hdigit =>
        split at h
        · split at h <;> exact absurd h (by simp)
        next hvar =>
          split at h
          · -- assignment branch
            split at h
            · exact absurd h (by simp)
            next hvalid =>
              split at h
              · split at h <;> exact absurd h (by simp)
              next hno =>
                obtain ⟨i, v, hp⟩ := assignValid_none_shape _ _ hvalid
                exact absurd hp (by intro hq; exact hno i v hq)
          next hassign =>
            split at h
            · -- command branch
              split at h
              · exact absurd h (by simp)
              · split at h <;> exact absurd h (by simp)
            next hcmd =>
              split at h
              · exact absurd h (by simp)
              next hcheck =>
                refine ⟨by simpa using hempty, by simpa using hdigit,
                  by simpa using hvar, by simpa using hassign,
                  by simpa using hcmd, by simpa using hcheck⟩

/-- C7 witness: the amended statement applied at the crashing line
`1 +` (whose classification facts it yields) and at `/exit` (the one
line allowed to stop the loop). -/
theorem calc_c7_witness :
    (("1 +".data.isEmpty = false) ∧
      strIsdigit (lstripMinus "1 +".data) = false ∧
      strIsalpha ("1 +".data.filter (fun c => !(c == ' '))) = false ∧
      "1 +".data.contains '=' = false ∧
      ("1 +".data.head? == some '/') = false ∧
      checkExpr "1 +".data = false) ∧
    "/exit" = "/exit" :=
  ⟨(calc_c7 [] "1 +").2 (by decide),
    (calc_c7 [] "/exit").1 [] ["Bye!"] (by decide)⟩

/-- C9 counterexample: the claim asserts all intermediate values are
exact integers, so `10 / 4 * 2` would yield the integer-arithmetic
result 4.  The code evaluates `/` as Python float (true) division:
the intermediate value is 5/2, and the printed result is 5, not 4
(which is what the spec-modelled integer evaluation `intEvalRpn`
returns on the very same postfix sequence). -/
theorem calc_c9_cex :
    processLine [] "10 / 4 * 2" = some ([], ["5"], true) ∧
    toRpn (toArray "10 / 4 * 2".data) = some ["10", "4", "/", "2", "*"] ∧
    intEvalRpn ["10", "4", "/", "2", "*"] = some 4 ∧
    calcFold [] ["10", "4", "/"] [] = some [PyVal.num (mkRat 5 2)] ∧
    (mkRat 5 2).den ≠ 1 := by
  refine ⟨by decide, by decide, by decide, by decide, by decide⟩
